import Mathlib

/-!
Verification of the Jobs-Agent matching-and-application pipeline
(src/main.py) against its natural-language specification.

The relevant parts of src/main.py are embedded shallowly below:
pure per-job computations become Lean functions, the apply-phase control
flow becomes explicit functions from the external inputs (connector
responses, loaded bulk results, browser/login success) to the produced
outcome lists and report counts.  Randomness (random.randint) is embedded
as a function of an explicit seed.  Scores are rationals (Python floats
in the source are only compared and added here).
-/

/-- A ranked job as built in main (src/main.py lines 2498-2507): the fields
of the dict that the pipeline reads later (job id, title, score, apply
type).  Fields not read by the embedded code paths are omitted. -/
structure RankedJob where
  jobId : Nat
  title : String
  score : Rat
  applyType : String
deriving DecidableEq

/-- Embeds one insertion step of the stable descending sort performed at
src/main.py line 2591 by list.sort with a score key and reverse set.
Python list.sort is documented stable; a stable descending sort is embedded
as insertion sort in which an element is placed before every element of
strictly smaller score and after every earlier element of greater or equal
score. -/
def insertScoreDesc (x : RankedJob) : List RankedJob → List RankedJob
  | [] => [x]
  | y :: ys => if x.score < y.score then y :: insertScoreDesc x ys else x :: y :: ys

/-- Embeds src/main.py line 2591: stable sort of the ranked-jobs list in
descending score order. -/
def sortByScoreDesc : List RankedJob → List RankedJob
  | [] => []
  | x :: xs => insertScoreDesc x (sortByScoreDesc xs)

/-- Characterwise lowercase, embedding Python str.lower as it is used at
src/main.py lines 2571 and 2576 on roles and titles. -/
def strLower (s : List Char) : List Char := s.map Char.toLower

/-- The needle occurs at the head of the haystack. -/
def startsWithL : List Char → List Char → Bool
  | [], _ => true
  | _ :: _, [] => false
  | a :: restN, b :: restH => a == b && startsWithL restN restH

/-- Python substring containment (the in operator on strings). -/
def containsSub (needle : List Char) : List Char → Bool
  | [] => needle.isEmpty
  | b :: bs => startsWithL needle (b :: bs) || containsSub needle bs

/-- Substring containment lifted to String. -/
def strContains (needle hay : String) : Bool := containsSub needle.data hay.data

/-- src/main.py lines 2571-2578: number of user roles whose lowercased text
occurs in the lowercased job title.  One count per role in the list; the
membership test is Boolean, so several occurrences of one role inside the
title still count once. -/
def roleMatchScore (userRoles : List (List Char)) (jobTitle : List Char) : Nat :=
  userRoles.countP (fun role => containsSub (strLower role) (strLower jobTitle))

/-- src/main.py line 2584: the role-match bonus, capped at 2. -/
def roleBonus (userRoles : List (List Char)) (jobTitle : List Char) : Nat :=
  min (roleMatchScore userRoles jobTitle) 2

/-- src/main.py lines 2581-2585: when at least one role matched, the bonus
is added and the result capped at 10; otherwise the score is unchanged. -/
def adjustedScore (userRoles : List (List Char)) (jobTitle : List Char)
    (score : Rat) : Rat :=
  if 0 < roleMatchScore userRoles jobTitle then
    min (score + (roleBonus userRoles jobTitle : Rat)) 10
  else score

/-- Modelled from the spec: the body of check_job_eligibility is imported at
src/main.py line 287 from stages.llm_matcher.keyword_matcher, a module that
is not under src/; only its call site (line 2622) is.  Spec section 4.2: a
job is ineligible when its score is below min_score AND it has no
role/skill token overlap, otherwise eligible; the reason string names the
deciding clause.  The role/skill overlap verdict is a Boolean input. -/
def check_job_eligibility (score : Rat) (minScore : Rat) (hasOverlap : Bool) :
    Bool × String :=
  if score < minScore ∧ hasOverlap = false then
    (false, "score below min_score and no role/skill overlap")
  else (true, "eligible")

/-- src/main.py lines 2561-2563: when the company-site filter is enabled,
jobs whose apply type is company_site are removed from the ranked list. -/
def filterCompanySiteJobs : Bool → List RankedJob → List RankedJob
  | true, jobs => jobs.filter (fun j => !(j.applyType == "company_site"))
  | false, jobs => jobs

/-- src/main.py lines 2561-2563 and 2620-2636 composed: the jobs surviving
the company-site prefilter and the eligibility gate (called at line 2622
with min_score 5.0; threshold and overlap verdict are parameters here). -/
def eligibleJobs (filterOn : Bool) (minScore : Rat) (overlap : RankedJob → Bool)
    (jobs : List RankedJob) : List RankedJob :=
  (filterCompanySiteJobs filterOn jobs).filter
    (fun j => (check_job_eligibility j.score minScore (overlap j)).1)

/-- The job-detail record read when building a ranked job (src/main.py
lines 2520-2530), reduced to the fields the embedded paths read. -/
structure JobDetail where
  role : String
  applyType : String
deriving DecidableEq

/-- One scoring result tuple (job id, optional score, explanation) as
consumed at src/main.py line 2514. -/
structure ScoreEntry where
  jid : Nat
  score : Option Rat
  expl : String
deriving DecidableEq

/-- src/main.py lines 2512-2533: building the ranked-jobs list from the
scoring results.  An entry whose score is None is skipped with a warning,
an entry whose job id is absent from the details dictionary is skipped,
and every kept entry yields one ranked job carrying its own score. -/
def buildRankedJobs (details : Nat → Option JobDetail) :
    List ScoreEntry → List RankedJob
  | [] => []
  | ScoreEntry.mk _ none _ :: rest => buildRankedJobs details rest
  | ScoreEntry.mk jid (some s) _ :: rest =>
    match details jid with
    | none => buildRankedJobs details rest
    | some job =>
      RankedJob.mk jid job.role s job.applyType :: buildRankedJobs details rest

/-- One entry of the result list returned by the external bulk-apply worker
(loaded from application_results.json at src/main.py line 273): a job
record together with the applied flag read at lines 2726-2727. -/
structure BulkResult where
  jid : Nat
  applied : Bool
deriving DecidableEq

/-- src/main.py lines 271-283 (tail of apply_to_multiple_jobs): the loaded
results are returned as they are when they form a non-empty list; otherwise
(file missing, unparsable, not a list, or empty: all falsy or non-list)
every submitted job is returned with the applied flag false.  The loaded
input is none when no result list could be parsed. -/
def apply_to_multiple_jobs (job_queue : List Nat)
    (loaded : Option (List BulkResult)) : List BulkResult :=
  match loaded with
  | some rs =>
    if rs.isEmpty then job_queue.map (fun j => BulkResult.mk j false) else rs
  | none => job_queue.map (fun j => BulkResult.mk j false)

/-- src/main.py lines 2713-2739: the auto-apply branch submits the direct
jobs and partitions whatever result list comes back by its applied flag;
the skipped list stays empty.  When the call yields a falsy result the
submitted jobs are all treated as failed. -/
def autoApplyPartition (direct : List Nat) (loaded : Option (List BulkResult)) :
    List BulkResult × List BulkResult × List Nat :=
  let results := apply_to_multiple_jobs direct loaded
  if results.isEmpty then ([], direct.map (fun j => BulkResult.mk j false), [])
  else (results.filter (fun r => r.applied),
        results.filter (fun r => !r.applied), [])

/-- src/main.py lines 2693-2694: the jobs kept for direct application. -/
def directApplyJobs (jobs : List RankedJob) : List RankedJob :=
  jobs.filter (fun j => j.applyType == "naukri" || j.applyType == "direct")

/-- src/main.py lines 2691-2747 followed by 2918-2922: the report counts
(applied, failed, skipped) produced by the auto-apply branch. -/
def autoApplyCounts (jobs : List RankedJob) (loaded : Option (List BulkResult)) :
    Nat × Nat × Nat :=
  let direct := directApplyJobs jobs
  if direct.isEmpty then (0, 0, jobs.length)
  else
    let p := autoApplyPartition (direct.map (fun j => j.jobId)) loaded
    (p.1.length, p.2.1.length, p.2.2.length)

/-- A completed run of the per-job application subprocess: its return code
and captured standard output (src/main.py lines 2826-2832). -/
structure ConnectorResponse where
  returncode : Nat
  stdout : String
deriving DecidableEq

/-- Result of one attempt of the per-job application subprocess: either a
completed process, or a Python exception escaping the attempt (caught at
src/main.py line 2897). -/
inductive AttemptResult
  | resp (r : ConnectorResponse)
  | exn
deriving DecidableEq

/-- src/main.py lines 2834-2841: the application method parsed from the
subprocess output. -/
def parseApplyMethod (out : String) : Option String :=
  if strContains "using chatbot" out then some "chatbot"
  else if strContains "using direct" out then some "direct"
  else if strContains "already applied" out then some "already_applied"
  else none

/-- Outcome of one per-job application attempt. -/
inductive ApplyOutcome
  | applied (method : Option String)
  | failed (method : Option String)
deriving DecidableEq

/-- src/main.py lines 2805-2886: one iteration of the per-job apply loop
with the apply flag set.  The subprocess (the PortalConnector call) is
invoked unconditionally, exactly once; success is the return code being
zero.  The second component counts the connector calls the iteration
makes. -/
def applyAttempt (r : ConnectorResponse) : ApplyOutcome × Nat :=
  (if r.returncode == 0 then ApplyOutcome.applied (parseApplyMethod r.stdout)
   else ApplyOutcome.failed (parseApplyMethod r.stdout), 1)

/-- src/main.py lines 2762-2899: the per-job application loop.  Each job is
appended to exactly one of applied or failed (an escaping exception also
appends to failed); no job is skipped on this path. -/
def applyLoop (att : RankedJob → AttemptResult) :
    List RankedJob → List RankedJob × List RankedJob
  | [] => ([], [])
  | j :: rest =>
    let p := applyLoop att rest
    match att j with
    | AttemptResult.resp r =>
      match (applyAttempt r).1 with
      | ApplyOutcome.applied _ => (j :: p.1, p.2)
      | ApplyOutcome.failed _ => (p.1, j :: p.2)
    | AttemptResult.exn => (p.1, j :: p.2)

/-- src/main.py lines 2893-2895: the randomized wait between consecutive
applications, random.randint(5, 10), embedded as a function of a seed. -/
def interApplicationWait (seed : Nat) : Nat := 5 + seed % 6

/-- A report as built at src/main.py lines 2918-2959, reduced to its
aggregate counts (applied, failed, skipped). -/
abbrev ReportCounts := Nat × Nat × Nat

/-- src/main.py lines 2682-3001: control flow of the apply phase.  Browser
start failure returns exit code 1 with no report (lines 2684-2687); in
auto-apply mode the bulk branch runs and a report is generated; otherwise a
login failure returns exit code 1 with no report (lines 2756-2759), else
the per-job loop runs and a report is generated (lines 2914-2963); the run
then returns 0. -/
def runApplyPhase (autoApply browserOk loginOk : Bool)
    (jobs : List RankedJob) (loaded : Option (List BulkResult))
    (att : RankedJob → AttemptResult) : Int × Option ReportCounts :=
  if browserOk = false then (1, none)
  else if autoApply = true then (0, some (autoApplyCounts jobs loaded))
  else if loginOk = false then (1, none)
  else
    let p := applyLoop att jobs
    (0, some (p.1.length, p.2.length, 0))

/-- An observable step of the Selenium search function. -/
inductive SearchEvent
  | sleep (seconds : Nat)
  | screenshot
  | extractLinks (page : Nat)
deriving DecidableEq

/-- Whether an event extracts job links. -/
def isExtract : SearchEvent → Bool
  | SearchEvent.extractLinks _ => true
  | _ => false

/-- Seconds slept by an event. -/
def sleepSeconds : SearchEvent → Nat
  | SearchEvent.sleep s => s
  | _ => 0

/-- src/main.py lines 733-760: straight-line event trace of the post-filter
segment of search_naukri_with_selenium: an unconditional
time.sleep(50000000), a screenshot of the final results, a screenshot of
page one, then link extraction over pages 1 to 3.  No branch guards the
sleep. -/
def postFilterTrace : List SearchEvent :=
  [SearchEvent.sleep 50000000, SearchEvent.screenshot, SearchEvent.screenshot,
   SearchEvent.extractLinks 1, SearchEvent.extractLinks 2,
   SearchEvent.extractLinks 3]

/-- Total seconds slept before the first link-extraction event of a
trace. -/
def timeBeforeFirstExtract (tr : List SearchEvent) : Nat :=
  ((tr.takeWhile (fun e => !isExtract e)).map sleepSeconds).sum

/-! ## Theorems -/

theorem mem_insertScoreDesc (a x : RankedJob) (l : List RankedJob) :
    a ∈ insertScoreDesc x l ↔ a = x ∨ a ∈ l := by
  induction l with
  | nil => simp [insertScoreDesc]
  | cons y ys ih =>
    rw [insertScoreDesc]
    by_cases h : x.score < y.score
    · rw [if_pos h]
      simp only [List.mem_cons, ih]
      tauto
    · rw [if_neg h]
      simp only [List.mem_cons]

theorem pairwise_insertScoreDesc (x : RankedJob) (l : List RankedJob)
    (h : List.Pairwise (fun a b => b.score ≤ a.score) l) :
    List.Pairwise (fun a b => b.score ≤ a.score) (insertScoreDesc x l) := by
  induction l with
  | nil => simp [insertScoreDesc]
  | cons y ys ih =>
    rw [List.pairwise_cons] at h
    obtain ⟨hy, hys⟩ := h
    rw [insertScoreDesc]
    by_cases hxy : x.score < y.score
    · rw [if_pos hxy]
      rw [List.pairwise_cons]
      constructor
      · intro a ha
        rw [mem_insertScoreDesc] at ha
        rcases ha with rfl | ha
        · exact le_of_lt hxy
        · exact hy a ha
      · exact ih hys
    · rw [if_neg hxy]
      rw [List.pairwise_cons]
      constructor
      · intro a ha
        rcases List.mem_cons.mp ha with rfl | ha
        · exact le_of_not_lt hxy
        · exact le_trans (hy a ha) (le_of_not_lt hxy)
      · exact List.pairwise_cons.mpr ⟨hy, hys⟩

theorem filter_insertScoreDesc (c : Rat) (x : RankedJob) (l : List RankedJob) :
    (insertScoreDesc x l).filter (fun j => j.score == c) =
      (x :: l).filter (fun j => j.score == c) := by
  induction l with
  | nil => rfl
  | cons y ys ih =>
    rw [insertScoreDesc]
    by_cases hxy : x.score < y.score
    · rw [if_pos hxy]
      by_cases hx : x.score = c
      · have hy : ¬ y.score = c := by
          intro hc
          rw [hx, hc] at hxy
          exact lt_irrefl c hxy
        simp [List.filter_cons, hx, hy, ih]
      · simp [List.filter_cons, hx, ih]
    · rw [if_neg hxy]

/-- Sorted (descending) and stable: main statement pieces for the ranking
claim, proved by induction over the ranked-jobs list. -/
theorem sortByScoreDesc_pairwise (l : List RankedJob) :
    List.Pairwise (fun a b => b.score ≤ a.score) (sortByScoreDesc l) := by
  induction l with
  | nil => simp [sortByScoreDesc]
  | cons x xs ih => exact pairwise_insertScoreDesc x _ ih

theorem sortByScoreDesc_filter (c : Rat) (l : List RankedJob) :
    (sortByScoreDesc l).filter (fun j => j.score == c) =
      l.filter (fun j => j.score == c) := by
  induction l with
  | nil => rfl
  | cons x xs ih =>
    rw [sortByScoreDesc, filter_insertScoreDesc]
    simp [List.filter_cons, ih]

/-- C3: after ranking, the adjusted scores of the ranked job list are
non-increasing from first to last, and the jobs holding any fixed adjusted
score appear in the sorted list in exactly the order they had in the
pre-ranking list, so any two jobs with equal adjusted score keep their
original relative order. -/
theorem ranking_nonincreasing_and_stable (l : List RankedJob) :
    List.Pairwise (fun a b => b.score ≤ a.score) (sortByScoreDesc l) ∧
    ∀ c : Rat, (sortByScoreDesc l).filter (fun j => j.score == c) =
      l.filter (fun j => j.score == c) :=
  ⟨sortByScoreDesc_pairwise l, fun c => sortByScoreDesc_filter c l⟩

theorem check_job_eligibility_fst (score minScore : Rat) (o : Bool) :
    (check_job_eligibility score minScore o).1 = true ↔
      (minScore ≤ score ∨ o = true) := by
  by_cases h : score < minScore ∧ o = false
  · rw [check_job_eligibility, if_pos h]
    obtain ⟨h1, h2⟩ := h
    simp [h2, not_le_of_lt h1]
  · rw [check_job_eligibility, if_neg h]
    rw [not_and_or] at h
    simp only [true_iff, iff_true]
    rcases h with h | h
    · exact Or.inl (not_lt.mp h)
    · cases o with
      | false => exact absurd rfl h
      | true => exact Or.inr rfl

theorem mem_filterCompanySiteJobs (filterOn : Bool) (jobs : List RankedJob)
    (j : RankedJob) :
    j ∈ filterCompanySiteJobs filterOn jobs ↔
      j ∈ jobs ∧ ¬(filterOn = true ∧ j.applyType = "company_site") := by
  cases filterOn with
  | false => simp [filterCompanySiteJobs]
  | true => simp [filterCompanySiteJobs, List.mem_filter]

/-- C4: the role-match bonus is one point per distinct user role occurring
as a substring of the job title, capped at two points in total; the
adjusted score never exceeds 10 given a score on the 0-10 scale; and a
single role, however many times it occurs inside the title, contributes a
bonus of at most 2. -/
theorem role_bonus_capped (userRoles : List (List Char)) (jobTitle : List Char)
    (score : Rat) (hnd : userRoles.Nodup) (hs : score ≤ 10) :
    roleBonus userRoles jobTitle =
      min (userRoles.filter
        (fun role => containsSub (strLower role) (strLower jobTitle))).length 2 ∧
    roleBonus userRoles jobTitle ≤ 2 ∧
    adjustedScore userRoles jobTitle score ≤ 10 ∧
    ∀ r : List Char, roleBonus [r] jobTitle ≤ 2 := by
  refine ⟨?_, ?_, ?_, ?_⟩
  · rw [roleBonus, roleMatchScore, List.countP_eq_length_filter]
  · exact min_le_right _ _
  · rw [adjustedScore]
    split
    · exact min_le_right _ _
    · exact hs
  · intro r
    exact min_le_right _ _

/-- Witness: the single role da occurs twice in the title dada, the user
role list is a set, and the score is on scale. -/
theorem role_bonus_capped_witness :
    List.Nodup [['d', 'a']] ∧ ((7 : Rat) ≤ 10) ∧
    (roleBonus [['d', 'a']] ['d', 'a', 'd', 'a'] =
      min ([['d', 'a']].filter
        (fun role => containsSub (strLower role)
          (strLower ['d', 'a', 'd', 'a']))).length 2 ∧
     roleBonus [['d', 'a']] ['d', 'a', 'd', 'a'] ≤ 2 ∧
     adjustedScore [['d', 'a']] ['d', 'a', 'd', 'a'] 7 ≤ 10 ∧
     ∀ r : List Char, roleBonus [r] ['d', 'a', 'd', 'a'] ≤ 2) :=
  ⟨by decide, by norm_num,
    role_bonus_capped [['d', 'a']] ['d', 'a', 'd', 'a'] 7 (by decide)
      (by norm_num)⟩

/-- C6: the eligibility gate evaluates its clauses in order.  A job is kept
exactly when it survives the apply-type exclusion and then either reaches
the score threshold or has a role/skill overlap; and a job whose apply type
is company_site is ineligible with the filter enabled, whatever its score
and overlap, since the exclusion clause fires first. -/
theorem eligibility_clause_order (filterOn : Bool) (minScore : Rat)
    (overlap : RankedJob → Bool) (jobs : List RankedJob) (j jc : RankedJob)
    (hc : jc.applyType = "company_site") :
    (j ∈ eligibleJobs filterOn minScore overlap jobs ↔
      j ∈ jobs ∧ ¬(filterOn = true ∧ j.applyType = "company_site") ∧
        (minScore ≤ j.score ∨ overlap j = true)) ∧
    jc ∉ eligibleJobs true minScore overlap jobs := by
  constructor
  · rw [eligibleJobs, List.mem_filter, mem_filterCompanySiteJobs,
      check_job_eligibility_fst, and_assoc]
  · intro hmem
    rw [eligibleJobs, List.mem_filter, mem_filterCompanySiteJobs] at hmem
    exact hmem.1.2 ⟨rfl, hc⟩

/-- Witness: a concrete direct job passes the gate while a concrete
company-site job is excluded regardless of its score of 9. -/
theorem eligibility_clause_order_witness :
    (RankedJob.mk 1 "a" 9 "company_site").applyType = "company_site" ∧
    ((RankedJob.mk 2 "b" 6 "direct" ∈
        eligibleJobs true 5 (fun _ => false)
          [RankedJob.mk 1 "a" 9 "company_site", RankedJob.mk 2 "b" 6 "direct"] ↔
      RankedJob.mk 2 "b" 6 "direct" ∈
          [RankedJob.mk 1 "a" 9 "company_site", RankedJob.mk 2 "b" 6 "direct"] ∧
        ¬(true = true ∧ (RankedJob.mk 2 "b" 6 "direct").applyType = "company_site") ∧
        ((5 : Rat) ≤ (RankedJob.mk 2 "b" 6 "direct").score ∨
          (fun (_ : RankedJob) => false) (RankedJob.mk 2 "b" 6 "direct") = true)) ∧
     RankedJob.mk 1 "a" 9 "company_site" ∉
       eligibleJobs true 5 (fun _ => false)
         [RankedJob.mk 1 "a" 9 "company_site", RankedJob.mk 2 "b" 6 "direct"]) :=
  ⟨rfl, eligibility_clause_order true 5 (fun _ => false)
    [RankedJob.mk 1 "a" 9 "company_site", RankedJob.mk 2 "b" 6 "direct"]
    (RankedJob.mk 2 "b" 6 "direct") (RankedJob.mk 1 "a" 9 "company_site") rfl⟩

theorem buildRankedJobs_sources (details : Nat → Option JobDetail)
    (entries : List ScoreEntry) :
    ∀ rj ∈ buildRankedJobs details entries,
      ∃ e ∈ entries, e.score = some rj.score ∧ e.jid = rj.jobId := by
  induction entries with
  | nil => intro rj hrj; cases hrj
  | cons e rest ih =>
    rcases e with ⟨jid, sc, ex⟩
    cases sc with
    | none =>
      intro rj hrj
      obtain ⟨e, he, hsc, hjid⟩ := ih rj hrj
      exact ⟨e, List.mem_cons_of_mem _ he, hsc, hjid⟩
    | some s =>
      cases hd : details jid with
      | none =>
        intro rj hrj
        rw [buildRankedJobs, hd] at hrj
        obtain ⟨e, he, hsc, hjid⟩ := ih rj hrj
        exact ⟨e, List.mem_cons_of_mem _ he, hsc, hjid⟩
      | some job =>
        intro rj hrj
        rw [buildRankedJobs, hd] at hrj
        rcases List.mem_cons.mp hrj with rfl | hrj
        · exact ⟨ScoreEntry.mk jid (some s) ex, List.mem_cons_self _ _, rfl, rfl⟩
        · obtain ⟨e, he, hsc, hjid⟩ := ih rj hrj
          exact ⟨e, List.mem_cons_of_mem _ he, hsc, hjid⟩

/-- C8: an entry whose scoring produced no score is excluded from the
ranked list (filtering the unscored entries away first changes nothing);
every ranked job carries the score of an actual scored entry, so no job is
defaulted to a zero score; and, with unique job ids, a job whose entry is
unscored never appears in the ranked list at all.  The embedded builder is
total, so no exception is raised on an unscored entry. -/
theorem unscored_jobs_excluded (details : Nat → Option JobDetail)
    (entries : List ScoreEntry)
    (hnd : (entries.map (fun e => e.jid)).Nodup) :
    buildRankedJobs details entries =
      buildRankedJobs details (entries.filter (fun e => e.score.isSome)) ∧
    (∀ rj ∈ buildRankedJobs details entries,
      ∃ e ∈ entries, e.score = some rj.score ∧ e.jid = rj.jobId) ∧
    (∀ e ∈ entries, e.score = none →
      ∀ rj ∈ buildRankedJobs details entries, rj.jobId ≠ e.jid) := by
  refine ⟨?_, buildRankedJobs_sources details entries, ?_⟩
  · clear hnd
    induction entries with
    | nil => rfl
    | cons e rest ih =>
      rcases e with ⟨jid, sc, ex⟩
      cases sc with
      | none => simpa [buildRankedJobs, List.filter_cons] using ih
      | some s =>
        cases hd : details jid with
        | none => simp [buildRankedJobs, List.filter_cons, hd, ih]
        | some job => simp [buildRankedJobs, List.filter_cons, hd, ih]
  · intro e he hnone rj hrj heq
    obtain ⟨e2, he2, hsc, hjid⟩ := buildRankedJobs_sources details entries rj hrj
    have hee : e2 = e :=
      List.inj_on_of_nodup_map hnd he2 he (by rw [hjid, heq])
    rw [hee, hnone] at hsc
    exact Option.noConfusion hsc

/-- Witness: two entries with distinct ids, one scored and one unscored. -/
theorem unscored_jobs_excluded_witness :
    (([ScoreEntry.mk 1 (some 7) "a", ScoreEntry.mk 2 none "b"].map
        (fun e => e.jid)).Nodup) ∧
    (buildRankedJobs (fun n => if n = 1 then some (JobDetail.mk "t" "direct") else none)
        [ScoreEntry.mk 1 (some 7) "a", ScoreEntry.mk 2 none "b"] =
      buildRankedJobs (fun n => if n = 1 then some (JobDetail.mk "t" "direct") else none)
        ([ScoreEntry.mk 1 (some 7) "a", ScoreEntry.mk 2 none "b"].filter
          (fun e => e.score.isSome)) ∧
     (∀ rj ∈ buildRankedJobs
          (fun n => if n = 1 then some (JobDetail.mk "t" "direct") else none)
          [ScoreEntry.mk 1 (some 7) "a", ScoreEntry.mk 2 none "b"],
        ∃ e ∈ [ScoreEntry.mk 1 (some 7) "a", ScoreEntry.mk 2 none "b"],
          e.score = some rj.score ∧ e.jid = rj.jobId) ∧
     (∀ e ∈ [ScoreEntry.mk 1 (some 7) "a", ScoreEntry.mk 2 none "b"],
        e.score = none →
        ∀ rj ∈ buildRankedJobs
            (fun n => if n = 1 then some (JobDetail.mk "t" "direct") else none)
            [ScoreEntry.mk 1 (some 7) "a", ScoreEntry.mk 2 none "b"],
          rj.jobId ≠ e.jid)) :=
  ⟨by decide,
    unscored_jobs_excluded
      (fun n => if n = 1 then some (JobDetail.mk "t" "direct") else none)
      [ScoreEntry.mk 1 (some 7) "a", ScoreEntry.mk 2 none "b"] (by decide)⟩

/-- C1 fails on the code: five job ids submitted to the bulk worker, the
worker returns four results; the missing job id 5 is not marked failed
(the failed count stays 0) and it appears in none of the three outcome
lists, so it is silently dropped from the accounting. -/
theorem bulk_missing_result_dropped :
    (autoApplyPartition [1, 2, 3, 4, 5]
        (some [BulkResult.mk 1 true, BulkResult.mk 2 true,
               BulkResult.mk 3 true, BulkResult.mk 4 true])).2.1.length = 0 ∧
    5 ∉ ((autoApplyPartition [1, 2, 3, 4, 5]
        (some [BulkResult.mk 1 true, BulkResult.mk 2 true,
               BulkResult.mk 3 true, BulkResult.mk 4 true])).1.map
          (fun r => r.jid)) ∧
    5 ∉ ((autoApplyPartition [1, 2, 3, 4, 5]
        (some [BulkResult.mk 1 true, BulkResult.mk 2 true,
               BulkResult.mk 3 true, BulkResult.mk 4 true])).2.1.map
          (fun r => r.jid)) ∧
    5 ∉ (autoApplyPartition [1, 2, 3, 4, 5]
        (some [BulkResult.mk 1 true, BulkResult.mk 2 true,
               BulkResult.mk 3 true, BulkResult.mk 4 true])).2.2 := by decide

theorem map_mk_false_filter (l : List Nat) :
    (l.map (fun j => BulkResult.mk j false)).filter (fun r => r.applied) = [] ∧
    (l.map (fun j => BulkResult.mk j false)).filter (fun r => !r.applied) =
      l.map (fun j => BulkResult.mk j false) := by
  induction l with
  | nil => exact ⟨rfl, rfl⟩
  | cons a l ih => simp [List.filter_cons, ih]

theorem autoApplyPartition_some (direct : List Nat) (rs : List BulkResult)
    (h : rs ≠ []) :
    autoApplyPartition direct (some rs) =
      (rs.filter (fun r => r.applied), rs.filter (fun r => !r.applied), []) := by
  have hemp : rs.isEmpty = false := by
    cases rs with
    | nil => exact absurd rfl h
    | cons a l => rfl
  rw [autoApplyPartition, apply_to_multiple_jobs, hemp]
  simp [hemp]

/-- C1 amended: in bulk mode the returned result list is partitioned by its
applied flag, with the skipped list empty; a submitted job id absent from
the returned results appears in none of the three outcome lists and
contributes nothing to the failed count; only when no result list at all
could be loaded are the submitted jobs all marked failed. -/
theorem bulk_partition_behaviour (direct : List Nat) (rs : List BulkResult)
    (h : rs ≠ []) :
    autoApplyPartition direct (some rs) =
      (rs.filter (fun r => r.applied), rs.filter (fun r => !r.applied), []) ∧
    (∀ i ∈ direct, i ∉ rs.map (fun r => r.jid) →
      i ∉ ((autoApplyPartition direct (some rs)).1.map (fun r => r.jid)) ∧
      i ∉ ((autoApplyPartition direct (some rs)).2.1.map (fun r => r.jid)) ∧
      i ∉ (autoApplyPartition direct (some rs)).2.2) ∧
    autoApplyPartition direct none =
      ([], direct.map (fun j => BulkResult.mk j false), []) := by
  have h1 := autoApplyPartition_some direct rs h
  refine ⟨h1, ?_, ?_⟩
  · intro i _ hnot
    rw [h1]
    refine ⟨?_, ?_, List.not_mem_nil i⟩
    · intro hmem
      apply hnot
      obtain ⟨r, hr, hri⟩ := List.mem_map.mp hmem
      exact List.mem_map.mpr ⟨r, (List.mem_filter.mp hr).1, hri⟩
    · intro hmem
      apply hnot
      obtain ⟨r, hr, hri⟩ := List.mem_map.mp hmem
      exact List.mem_map.mpr ⟨r, (List.mem_filter.mp hr).1, hri⟩
  · rw [autoApplyPartition, apply_to_multiple_jobs]
    obtain ⟨hf1, hf2⟩ := map_mk_false_filter direct
    cases direct with
    | nil => rfl
    | cons a l => simp [hf1, hf2]

/-- Witness: one submitted id missing from a singleton result list. -/
theorem bulk_partition_behaviour_witness :
    ([BulkResult.mk 1 true] ≠ ([] : List BulkResult)) ∧
    (autoApplyPartition [1, 2] (some [BulkResult.mk 1 true]) =
      ([BulkResult.mk 1 true].filter (fun r => r.applied),
       [BulkResult.mk 1 true].filter (fun r => !r.applied), []) ∧
     (∀ i ∈ [1, 2], i ∉ [BulkResult.mk 1 true].map (fun r => r.jid) →
       i ∉ ((autoApplyPartition [1, 2] (some [BulkResult.mk 1 true])).1.map
          (fun r => r.jid)) ∧
       i ∉ ((autoApplyPartition [1, 2] (some [BulkResult.mk 1 true])).2.1.map
          (fun r => r.jid)) ∧
       i ∉ (autoApplyPartition [1, 2] (some [BulkResult.mk 1 true])).2.2) ∧
     autoApplyPartition [1, 2] none =
       ([], [1, 2].map (fun j => BulkResult.mk j false), [])) :=
  ⟨by decide, bulk_partition_behaviour [1, 2] [BulkResult.mk 1 true] (by decide)⟩

/-- C2 fails on the code: two eligible jobs enter the apply phase in
auto-apply mode, one direct and one chatbot; the worker answers for the
direct job, giving counts applied 1, failed 0, skipped 0, whose sum 1 is
not the 2 jobs that entered the phase. -/
theorem accounting_violated_in_auto_apply :
    ([RankedJob.mk 1 "a" 9 "direct",
      RankedJob.mk 2 "b" 8 "portal_chatbot"].length = 2) ∧
    autoApplyCounts
        [RankedJob.mk 1 "a" 9 "direct", RankedJob.mk 2 "b" 8 "portal_chatbot"]
        (some [BulkResult.mk 1 true]) = (1, 0, 0) ∧
    1 + 0 + 0 ≠ 2 := by decide

theorem applyLoop_length (att : RankedJob → AttemptResult)
    (jobs : List RankedJob) :
    (applyLoop att jobs).1.length + (applyLoop att jobs).2.length =
      jobs.length := by
  induction jobs with
  | nil => rfl
  | cons j rest ih =>
    rw [applyLoop]
    cases att j with
    | resp r =>
      cases h : (applyAttempt r).1 with
      | applied m => simp only [h, List.length_cons]; omega
      | failed m => simp only [h, List.length_cons]; omega
    | exn => simp only [List.length_cons]; omega

theorem length_filter_partition {α : Type} (p : α → Bool) (l : List α) :
    (l.filter p).length + (l.filter (fun a => !(p a))).length = l.length := by
  induction l with
  | nil => rfl
  | cons a l ih =>
    by_cases h : p a = true
    · simp only [List.filter_cons, h, Bool.not_true, if_true,
        Bool.false_eq_true, if_false, List.length_cons]
      omega
    · rw [Bool.not_eq_true] at h
      simp only [List.filter_cons, h, Bool.not_false, if_true,
        Bool.false_eq_true, if_false, List.length_cons]
      omega

/-- C2 amended: the accounting identity holds on the per-job application
path (every job lands in exactly one of applied or failed, nothing is
skipped) and on the auto-apply path when no direct-apply job exists (every
job is skipped); but on the auto-apply path with direct jobs the three
counts sum to the length of the returned result list instead, so eligible
non-direct jobs, and submitted jobs missing from the results, are not
accounted. -/
theorem apply_phase_accounting (att : RankedJob → AttemptResult)
    (jobs0 jobs1 jobs2 : List RankedJob) (loaded : Option (List BulkResult))
    (rs : List BulkResult)
    (h1 : directApplyJobs jobs1 = []) (h2 : directApplyJobs jobs2 ≠ [])
    (hrs : rs ≠ []) :
    ((applyLoop att jobs0).1.length + (applyLoop att jobs0).2.length + 0 =
      jobs0.length) ∧
    ((autoApplyCounts jobs1 loaded).1 + (autoApplyCounts jobs1 loaded).2.1 +
      (autoApplyCounts jobs1 loaded).2.2 = jobs1.length) ∧
    ((autoApplyCounts jobs2 (some rs)).1 + (autoApplyCounts jobs2 (some rs)).2.1 +
      (autoApplyCounts jobs2 (some rs)).2.2 = rs.length) := by
  refine ⟨?_, ?_, ?_⟩
  · rw [Nat.add_zero]
    exact applyLoop_length att jobs0
  · rw [autoApplyCounts, h1]
    simp
  · have hde : (directApplyJobs jobs2).isEmpty = false := by
      cases hd : directApplyJobs jobs2 with
      | nil => exact absurd hd h2
      | cons a l => rfl
    have hpart := autoApplyPartition_some
      ((directApplyJobs jobs2).map (fun j => j.jobId)) rs hrs
    rw [autoApplyCounts]
    simp only [hde, Bool.false_eq_true, if_false, hpart]
    exact length_filter_partition (fun r => r.applied) rs

/-- Witness: an empty loop batch, a batch with only a chatbot job (no
direct job), and a batch with one direct job answered by one result. -/
theorem apply_phase_accounting_witness :
    directApplyJobs [RankedJob.mk 2 "b" 8 "portal_chatbot"] = [] ∧
    directApplyJobs [RankedJob.mk 1 "a" 9 "direct"] ≠ [] ∧
    [BulkResult.mk 1 true] ≠ ([] : List BulkResult) ∧
    (((applyLoop (fun _ => AttemptResult.exn) []).1.length +
        (applyLoop (fun _ => AttemptResult.exn) []).2.length + 0 =
      ([] : List RankedJob).length) ∧
     ((autoApplyCounts [RankedJob.mk 2 "b" 8 "portal_chatbot"] none).1 +
        (autoApplyCounts [RankedJob.mk 2 "b" 8 "portal_chatbot"] none).2.1 +
        (autoApplyCounts [RankedJob.mk 2 "b" 8 "portal_chatbot"] none).2.2 =
      [RankedJob.mk 2 "b" 8 "portal_chatbot"].length) ∧
     ((autoApplyCounts [RankedJob.mk 1 "a" 9 "direct"]
          (some [BulkResult.mk 1 true])).1 +
        (autoApplyCounts [RankedJob.mk 1 "a" 9 "direct"]
          (some [BulkResult.mk 1 true])).2.1 +
        (autoApplyCounts [RankedJob.mk 1 "a" 9 "direct"]
          (some [BulkResult.mk 1 true])).2.2 =
      [BulkResult.mk 1 true].length)) :=
  ⟨by decide, by decide, by decide,
    apply_phase_accounting (fun _ => AttemptResult.exn) []
      [RankedJob.mk 2 "b" 8 "portal_chatbot"] [RankedJob.mk 1 "a" 9 "direct"]
      none [BulkResult.mk 1 true] (by decide) (by decide) (by decide)⟩

/-- C5 fails on the code: applying again to a job the portal reports as
already applied does return the already_applied method, but the loop issues
one connector (subprocess) call to learn it, not zero. -/
theorem reapply_issues_connector_call :
    applyAttempt (ConnectorResponse.mk 0 "Job already applied") =
      (ApplyOutcome.applied (some "already_applied"), 1) ∧
    (applyAttempt (ConnectorResponse.mk 0 "Job already applied")).2 ≠ 0 := by
  decide

/-- C5 amended: re-invoking apply on an already-applied job is not free of
connector calls: the loop performs no pre-call state check and always
issues exactly one subprocess (connector) call; when that call exits with
code zero and its output reports already applied, the recorded outcome is
applied with method already_applied. -/
theorem reapply_already_applied_one_call (r : ConnectorResponse)
    (h0 : r.returncode = 0)
    (h1 : strContains "using chatbot" r.stdout = false)
    (h2 : strContains "using direct" r.stdout = false)
    (h3 : strContains "already applied" r.stdout = true) :
    applyAttempt r = (ApplyOutcome.applied (some "already_applied"), 1) ∧
    (applyAttempt r).2 = 1 := by
  have hm : parseApplyMethod r.stdout = some "already_applied" := by
    simp [parseApplyMethod, h1, h2, h3]
  rw [applyAttempt, hm, h0]
  exact ⟨rfl, rfl⟩

/-- Witness: a zero return code whose output is already applied. -/
theorem reapply_already_applied_one_call_witness :
    (ConnectorResponse.mk 0 "already applied").returncode = 0 ∧
    strContains "using chatbot" (ConnectorResponse.mk 0 "already applied").stdout
      = false ∧
    strContains "using direct" (ConnectorResponse.mk 0 "already applied").stdout
      = false ∧
    strContains "already applied" (ConnectorResponse.mk 0 "already applied").stdout
      = true ∧
    (applyAttempt (ConnectorResponse.mk 0 "already applied") =
        (ApplyOutcome.applied (some "already_applied"), 1) ∧
      (applyAttempt (ConnectorResponse.mk 0 "already applied")).2 = 1) :=
  ⟨rfl, by decide, by decide, by decide,
    reapply_already_applied_one_call (ConnectorResponse.mk 0 "already applied")
      rfl (by decide) (by decide) (by decide)⟩

/-- C7 fails on the code: an attempt that fails settles the job as failed
after a single connector call; no second (retry) call is made. -/
theorem failed_attempt_not_retried :
    applyAttempt (ConnectorResponse.mk 1 "") = (ApplyOutcome.failed none, 1) ∧
    (applyAttempt (ConnectorResponse.mk 1 "")).2 ≠ 2 := by decide

/-- C7 amended: an apply attempt that fails (non-zero return code) settles
the job as failed immediately after the single connector call, with no
retry; the randomized 5 to 10 unit wait of the loop occurs between
consecutive applications, after an attempt completes, not as a retry
backoff. -/
theorem failure_settles_without_retry (r : ConnectorResponse)
    (h : r.returncode ≠ 0) :
    applyAttempt r = (ApplyOutcome.failed (parseApplyMethod r.stdout), 1) ∧
    (∀ seed : Nat, 5 ≤ interApplicationWait seed ∧
      interApplicationWait seed ≤ 10) := by
  constructor
  · have hb : (r.returncode == 0) = false := by
      simpa using h
    simp [applyAttempt, hb]
  · intro seed
    simp only [interApplicationWait]
    omega

/-- Witness: a failing return code. -/
theorem failure_settles_without_retry_witness :
    (ConnectorResponse.mk 1 "boom").returncode ≠ 0 ∧
    (applyAttempt (ConnectorResponse.mk 1 "boom") =
        (ApplyOutcome.failed
          (parseApplyMethod (ConnectorResponse.mk 1 "boom").stdout), 1) ∧
      (∀ seed : Nat, 5 ≤ interApplicationWait seed ∧
        interApplicationWait seed ≤ 10)) :=
  ⟨by decide,
    failure_settles_without_retry (ConnectorResponse.mk 1 "boom") (by decide)⟩

/-- C9 fails on the code: with a browser start failure, and likewise with a
login failure on the regular path, the run exits with code 1 and no report
is produced, although the apply phase was reached; such failures are
connector-fatal errors in the sense of the spec. -/
theorem fatal_path_exits_without_report :
    runApplyPhase false false true [] none (fun _ => AttemptResult.exn) =
      (1, none) ∧
    runApplyPhase false true false [] none (fun _ => AttemptResult.exn) =
      (1, none) := by
  constructor
  · simp [runApplyPhase]
  · simp [runApplyPhase]

/-- C9 amended: a finalized report is produced exactly on the paths where
the browser starts and, on the non-auto path, login succeeds; a browser
start failure, or a login failure on the regular path, exits with code 1
without producing any report. -/
theorem report_finalization_paths (autoApply loginOk : Bool)
    (jobs : List RankedJob) (loaded : Option (List BulkResult))
    (att : RankedJob → AttemptResult)
    (hl : autoApply = true ∨ loginOk = true) :
    (∃ counts : ReportCounts,
      runApplyPhase autoApply true loginOk jobs loaded att = (0, some counts)) ∧
    runApplyPhase autoApply false loginOk jobs loaded att = (1, none) ∧
    runApplyPhase false true false jobs loaded att = (1, none) := by
  refine ⟨?_, by simp [runApplyPhase], by simp [runApplyPhase]⟩
  cases autoApply with
  | true => exact ⟨autoApplyCounts jobs loaded, by simp [runApplyPhase]⟩
  | false =>
    have hlo : loginOk = true := by
      rcases hl with h | h
      · exact Bool.noConfusion h
      · exact h
    subst hlo
    exact ⟨((applyLoop att jobs).1.length, (applyLoop att jobs).2.length, 0),
      by simp [runApplyPhase]⟩

/-- Witness: the auto-apply branch over an empty batch. -/
theorem report_finalization_paths_witness :
    (true = true ∨ false = true) ∧
    ((∃ counts : ReportCounts,
        runApplyPhase true true false [] none (fun _ => AttemptResult.exn) =
          (0, some counts)) ∧
     runApplyPhase true false false [] none (fun _ => AttemptResult.exn) =
       (1, none) ∧
     runApplyPhase false true false [] none (fun _ => AttemptResult.exn) =
       (1, none)) :=
  ⟨Or.inl rfl,
    report_finalization_paths true false [] none (fun _ => AttemptResult.exn)
      (Or.inl rfl)⟩

/-- C10: the post-filter segment of the Selenium search sleeps a fixed,
unconditional 50000000 time units before any job link is extracted, so for
every bound smaller than 50000000 the wait preceding the first extraction
exceeds that bound: the search phase cannot complete within any practical
time bound. -/
theorem search_wait_dominates (bound : Nat) (h : bound < 50000000) :
    timeBeforeFirstExtract postFilterTrace = 50000000 ∧
    bound < timeBeforeFirstExtract postFilterTrace := by
  have ht : timeBeforeFirstExtract postFilterTrace = 50000000 := by rfl
  rw [ht]
  exact ⟨rfl, h⟩

/-- Witness: one full day is below the embedded wait. -/
theorem search_wait_dominates_witness :
    86400 < 50000000 ∧
    (timeBeforeFirstExtract postFilterTrace = 50000000 ∧
      86400 < timeBeforeFirstExtract postFilterTrace) :=
  ⟨by decide, search_wait_dominates 86400 (by decide)⟩
